import Mathlib

/-!
Verification of the `log` crate (logging facade): levels and filters, the
string parser, record and metadata builders, the global logger registration
slot, the `log!` macro dispatch, and the structured key-value subsystem
(`Key`, `Source::get`, `Value`/`Visitor`).

Machine integers are modelled as `Nat`/`Int` carrying exact values (the
widening casts `as u64`/`as i64` are value-preserving, hence identities in
this representation).  Strings compared byte-wise by the source are modelled
as `List Nat` of their UTF-8 bytes.  Mutable global statics are modelled by
explicit state passing.
-/

set_option autoImplicit false

namespace LogSpec

/-! ## Level and LevelFilter (src/out.rs: enum Level, enum LevelFilter) -/

/-- `enum Level { Error = 1, Warn, Info, Debug, Trace }` -/
inductive Level where
  | Error
  | Warn
  | Info
  | Debug
  | Trace
deriving DecidableEq, Fintype

/-- The `#[repr(usize)]` discriminant of a `Level` (`*self as usize`). -/
def Level.toUsize : Level → Nat
  | .Error => 1
  | .Warn => 2
  | .Info => 3
  | .Debug => 4
  | .Trace => 5

/-- `enum LevelFilter { Off, Error, Warn, Info, Debug, Trace }` -/
inductive LevelFilter where
  | Off
  | Error
  | Warn
  | Info
  | Debug
  | Trace
deriving DecidableEq, Fintype

/-- The `#[repr(usize)]` discriminant of a `LevelFilter`. -/
def LevelFilter.toUsize : LevelFilter → Nat
  | .Off => 0
  | .Error => 1
  | .Warn => 2
  | .Info => 3
  | .Debug => 4
  | .Trace => 5

/-- `impl PartialEq for Level`: `*self as usize == *other as usize`. -/
def Level.eqLevel (a b : Level) : Bool :=
  a.toUsize == b.toUsize

/-- `impl PartialEq<LevelFilter> for Level`: `*self as usize == *other as usize`. -/
def Level.eqFilter (a : Level) (b : LevelFilter) : Bool :=
  a.toUsize == b.toUsize

/-- `impl Ord for Level`: `(*self as usize).cmp(&(*other as usize))`. -/
def Level.cmpLevel (a b : Level) : Ordering :=
  compare a.toUsize b.toUsize

/-- `impl PartialOrd for Level`: `Some(self.cmp(other))`. -/
def Level.pcmpLevel (a b : Level) : Option Ordering :=
  some (Level.cmpLevel a b)

/-- `impl PartialOrd<LevelFilter> for Level`:
`Some((*self as usize).cmp(&(*other as usize)))`. -/
def Level.pcmpFilter (a : Level) (b : LevelFilter) : Option Ordering :=
  some (compare a.toUsize b.toUsize)

/-- `impl PartialEq for LevelFilter`: `*self as usize == *other as usize`. -/
def LevelFilter.eqFilter (a b : LevelFilter) : Bool :=
  a.toUsize == b.toUsize

/-- `impl PartialEq<Level> for LevelFilter`: `other.eq(self)`. -/
def LevelFilter.eqLevel (a : LevelFilter) (b : Level) : Bool :=
  Level.eqFilter b a

/-- `impl Ord for LevelFilter`: `(*self as usize).cmp(&(*other as usize))`. -/
def LevelFilter.cmpFilter (a b : LevelFilter) : Ordering :=
  compare a.toUsize b.toUsize

/-- `impl PartialOrd for LevelFilter`: `Some(self.cmp(other))`. -/
def LevelFilter.pcmpFilter (a b : LevelFilter) : Option Ordering :=
  some (LevelFilter.cmpFilter a b)

/-- `impl PartialOrd<Level> for LevelFilter`:
`other.partial_cmp(self).map(|x| x.reverse())`. -/
def LevelFilter.pcmpLevel (a : LevelFilter) (b : Level) : Option Ordering :=
  (Level.pcmpFilter b a).map Ordering.swap

/-- The default `PartialOrd::le` for `lvl <= filter`:
`matches!(self.partial_cmp(other), Some(Less | Equal))`. -/
def Level.leFilter (a : Level) (b : LevelFilter) : Bool :=
  match Level.pcmpFilter a b with
  | some Ordering.lt => true
  | some Ordering.eq => true
  | _ => false

/-- `Level::from_usize` (src/out.rs). -/
def Level.fromUsize : Nat → Option Level
  | 1 => some .Error
  | 2 => some .Warn
  | 3 => some .Info
  | 4 => some .Debug
  | 5 => some .Trace
  | _ => none

/-- `LevelFilter::from_usize` (src/out.rs). -/
def LevelFilter.fromUsize : Nat → Option LevelFilter
  | 0 => some .Off
  | 1 => some .Error
  | 2 => some .Warn
  | 3 => some .Info
  | 4 => some .Debug
  | 5 => some .Trace
  | _ => none

/-- `Level::max()`: returns `Level::Trace`. -/
def Level.max : Level := .Trace

/-- `LevelFilter::max()`: returns `LevelFilter::Trace`. -/
def LevelFilter.max : LevelFilter := .Trace

/-- `Level::to_level_filter`: `LevelFilter::from_usize(*self as usize).unwrap()`.
The `unwrap` never panics because every `Level` discriminant is in `0..=5`;
the `getD` default is unreachable. -/
def Level.toLevelFilter (l : Level) : LevelFilter :=
  (LevelFilter.fromUsize l.toUsize).getD .Off

/-- `LevelFilter::to_level`: `Level::from_usize(*self as usize)`. -/
def LevelFilter.toLevel (f : LevelFilter) : Option Level :=
  Level.fromUsize f.toUsize

/-- C4: the orderings on `Level` and `LevelFilter`, including both cross-type
comparisons, agree with comparing the numeric discriminants
Off=0 < Error=1 < Warn=2 < Info=3 < Debug=4 < Trace=5: cross-type
`partial_cmp` is always `Some` and equals comparing the `usize` values,
`LevelFilter`'s cross comparison is the reverse of `Level`'s, and all four
`PartialEq` instances coincide with discriminant equality. -/
theorem level_ordering_agrees_with_discriminants :
    ∀ (l l' : Level) (f f' : LevelFilter),
      (Level.pcmpFilter l f).isSome = true ∧
      (LevelFilter.pcmpLevel f l).isSome = true ∧
      Level.pcmpFilter l f = some (compare l.toUsize f.toUsize) ∧
      LevelFilter.pcmpLevel f l = (Level.pcmpFilter l f).map Ordering.swap ∧
      LevelFilter.pcmpLevel f l = some (compare f.toUsize l.toUsize) ∧
      Level.pcmpLevel l l' = some (compare l.toUsize l'.toUsize) ∧
      LevelFilter.pcmpFilter f f' = some (compare f.toUsize f'.toUsize) ∧
      Level.eqLevel l l' = (l.toUsize == l'.toUsize) ∧
      Level.eqFilter l f = (l.toUsize == f.toUsize) ∧
      LevelFilter.eqFilter f f' = (f.toUsize == f'.toUsize) ∧
      LevelFilter.eqLevel f l = (f.toUsize == l.toUsize) := by
  decide

/-- C5: `Level` and `LevelFilter` convert into each other losslessly except at
`Off`: `to_level_filter` then `to_level` is the identity on levels;
`to_level` is `none` exactly at `Off` and otherwise round-trips through
`to_level_filter`; both `max()` functions return `Trace`. -/
theorem level_filter_conversion_roundtrip :
    ∀ (l : Level) (f : LevelFilter),
      (Level.toLevelFilter l).toLevel = some l ∧
      (LevelFilter.toLevel f = none ↔ f = LevelFilter.Off) ∧
      (LevelFilter.toLevel f).map Level.toLevelFilter =
        (if f = LevelFilter.Off then none else some f) ∧
      Level.max = Level.Trace ∧
      LevelFilter.max = LevelFilter.Trace := by
  decide

/-! ## String parsing (src/out.rs: eq_ignore_ascii_case, FromStr, Display)

Rust `&str` values compared byte-wise are modelled as lists of their UTF-8
bytes (`List Nat`). -/

/-- The inner `to_ascii_uppercase` of `eq_ignore_ascii_case`:
`if c >= b'a' && c <= b'z' { c - b'a' + b'A' } else { c }`. -/
def toAsciiUppercase (c : Nat) : Nat :=
  if 97 ≤ c ∧ c ≤ 122 then c - 97 + 65 else c

/-- `eq_ignore_ascii_case` (src/out.rs): equal lengths and byte-wise equal
after `to_ascii_uppercase`. -/
def eqIgnoreAsciiCase (a b : List Nat) : Bool :=
  if a.length = b.length then
    (a.zip b).all fun p => toAsciiUppercase p.1 == toAsciiUppercase p.2
  else false

/-- The UTF-8 bytes of `"OFF"`. -/
def offName : List Nat := [79, 70, 70]

/-- The UTF-8 bytes of `"ERROR"`. -/
def errorName : List Nat := [69, 82, 82, 79, 82]

/-- The UTF-8 bytes of `"WARN"`. -/
def warnName : List Nat := [87, 65, 82, 78]

/-- The UTF-8 bytes of `"INFO"`. -/
def infoName : List Nat := [73, 78, 70, 79]

/-- The UTF-8 bytes of `"DEBUG"`. -/
def debugName : List Nat := [68, 69, 66, 85, 71]

/-- The UTF-8 bytes of `"TRACE"`. -/
def traceName : List Nat := [84, 82, 65, 67, 69]

/-- `LOG_LEVEL_NAMES = ["OFF", "ERROR", "WARN", "INFO", "DEBUG", "TRACE"]`. -/
def LOG_LEVEL_NAMES : List (List Nat) :=
  [offName, errorName, warnName, infoName, debugName, traceName]

/-- The name of a `Level`, i.e. `LOG_LEVEL_NAMES[l as usize]`. -/
def levelName : Level → List Nat
  | .Error => errorName
  | .Warn => warnName
  | .Info => infoName
  | .Debug => debugName
  | .Trace => traceName

/-- The name of a `LevelFilter`, i.e. `LOG_LEVEL_NAMES[f as usize]`. -/
def filterName : LevelFilter → List Nat
  | .Off => offName
  | .Error => errorName
  | .Warn => warnName
  | .Info => infoName
  | .Debug => debugName
  | .Trace => traceName

/-- `Iterator::position`: index of the first element satisfying the
predicate. -/
def position {α : Type} (p : α → Bool) : List α → Option Nat
  | [] => none
  | a :: rest => if p a then some 0 else (position p rest).map (· + 1)

/-- `fn ok_or<T, E>(t: Option<T>, e: E) -> Result<T, E>` (src/out.rs). -/
def okOr {α ε : Type} (t : Option α) (e : ε) : Except ε α :=
  match t with
  | some t => .ok t
  | none => .error e

/-- `pub struct ParseLevelError(())` (src/out.rs). -/
structure ParseLevelError where
deriving DecidableEq

/-- `impl FromStr for Level` (src/out.rs): position of the first
case-insensitively matching name, keeping only nonzero indices (so `"OFF"`
is rejected), then `Level::from_usize`.  The source's
`.map(|idx| Level::from_usize(idx).unwrap())` is `Option.bind fromUsize`
here: `from_usize` is `Some` at every reachable index `1..=5`. -/
def Level.fromStr (level : List Nat) : Except ParseLevelError Level :=
  okOr
    ((Option.filter (fun idx => idx ≠ 0)
        (position (fun name => eqIgnoreAsciiCase name level) LOG_LEVEL_NAMES)).bind
      Level.fromUsize)
    ⟨⟩

/-- `impl FromStr for LevelFilter` (src/out.rs): position of the first
case-insensitively matching name (index 0, `"OFF"`, included), then
`LevelFilter::from_usize`. -/
def LevelFilter.fromStr (level : List Nat) : Except ParseLevelError LevelFilter :=
  okOr
    ((position (fun name => eqIgnoreAsciiCase name level) LOG_LEVEL_NAMES).bind
      LevelFilter.fromUsize)
    ⟨⟩

/-- `impl Display for Level`: `fmt.pad(LOG_LEVEL_NAMES[*self as usize])`
(with the default format spec, `pad` writes the name verbatim). -/
def Level.display (l : Level) : List Nat :=
  LOG_LEVEL_NAMES.getD l.toUsize []

/-- `impl Display for LevelFilter`: writes `LOG_LEVEL_NAMES[*self as usize]`. -/
def LevelFilter.display (f : LevelFilter) : List Nat :=
  LOG_LEVEL_NAMES.getD f.toUsize []

lemma eqIgnoreAsciiCase_map_eq :
    ∀ (a b : List Nat), eqIgnoreAsciiCase a b = true →
      a.map toAsciiUppercase = b.map toAsciiUppercase := by
  intro a
  induction a with
  | nil =>
    intro b h
    cases b with
    | nil => rfl
    | cons y ys => simp [eqIgnoreAsciiCase] at h
  | cons x xs ih =>
    intro b h
    cases b with
    | nil => simp [eqIgnoreAsciiCase] at h
    | cons y ys =>
      unfold eqIgnoreAsciiCase at h
      split at h
      · rename_i hlen
        rw [List.zip_cons_cons, List.all_cons, Bool.and_eq_true,
          beq_iff_eq] at h
        obtain ⟨hxy, hall⟩ := h
        have hlen' : xs.length = ys.length := by simpa using hlen
        have hxs : eqIgnoreAsciiCase xs ys = true := by
          unfold eqIgnoreAsciiCase
          rw [if_pos hlen']
          exact hall
        simp only [List.map_cons]
        rw [hxy, ih ys hxs]
      · exact absurd h (by simp)

lemma eqIgnoreAsciiCase_unique {n1 n2 s : List Nat}
    (u1 : n1.map toAsciiUppercase = n1) (u2 : n2.map toAsciiUppercase = n2)
    (h1 : eqIgnoreAsciiCase n1 s = true) (h2 : eqIgnoreAsciiCase n2 s = true) :
    n1 = n2 := by
  have e1 := eqIgnoreAsciiCase_map_eq _ _ h1
  have e2 := eqIgnoreAsciiCase_map_eq _ _ h2
  rw [u1] at e1
  rw [u2] at e2
  exact e1.trans e2.symm

lemma name_match_unique {n2 s : List Nat} (n1 : List Nat)
    (hn : n1 ∈ LOG_LEVEL_NAMES) (hm : n2 ∈ LOG_LEVEL_NAMES)
    (hne : n1 ≠ n2) (h2 : eqIgnoreAsciiCase n2 s = true) :
    eqIgnoreAsciiCase n1 s = false := by
  cases hb : eqIgnoreAsciiCase n1 s with
  | false => rfl
  | true =>
    have ufix : ∀ n ∈ LOG_LEVEL_NAMES, n.map toAsciiUppercase = n := by decide
    exact absurd (eqIgnoreAsciiCase_unique (ufix _ hn) (ufix _ hm) hb h2) hne

lemma levelFromStr_ok_iff (s : List Nat) (l : Level) :
    Level.fromStr s = .ok l ↔ eqIgnoreAsciiCase (levelName l) s = true := by
  constructor
  · intro h
    cases h0 : eqIgnoreAsciiCase offName s <;>
      cases h1 : eqIgnoreAsciiCase errorName s <;>
      cases h2 : eqIgnoreAsciiCase warnName s <;>
      cases h3 : eqIgnoreAsciiCase infoName s <;>
      cases h4 : eqIgnoreAsciiCase debugName s <;>
      cases h5 : eqIgnoreAsciiCase traceName s <;>
      simp_all [Level.fromStr, LOG_LEVEL_NAMES, position, okOr, Option.filter,
        Level.fromUsize] <;>
      (try (cases h; simp_all [levelName]))
  · intro h
    cases l <;> simp only [levelName] at h
    case Error =>
      have h0 := name_match_unique offName (by decide) (by decide)
        (by decide) h
      simp [Level.fromStr, LOG_LEVEL_NAMES, position, h0, h, okOr,
        Option.filter, Level.fromUsize]
    case Warn =>
      have h0 := name_match_unique offName (by decide) (by decide)
        (by decide) h
      have h1 := name_match_unique errorName (by decide) (by decide)
        (by decide) h
      simp [Level.fromStr, LOG_LEVEL_NAMES, position, h0, h1, h, okOr,
        Option.filter, Level.fromUsize]
    case Info =>
      have h0 := name_match_unique offName (by decide) (by decide)
        (by decide) h
      have h1 := name_match_unique errorName (by decide) (by decide)
        (by decide) h
      have h2 := name_match_unique warnName (by decide) (by decide)
        (by decide) h
      simp [Level.fromStr, LOG_LEVEL_NAMES, position, h0, h1, h2, h, okOr,
        Option.filter, Level.fromUsize]
    case Debug =>
      have h0 := name_match_unique offName (by decide) (by decide)
        (by decide) h
      have h1 := name_match_unique errorName (by decide) (by decide)
        (by decide) h
      have h2 := name_match_unique warnName (by decide) (by decide)
        (by decide) h
      have h3 := name_match_unique infoName (by decide) (by decide)
        (by decide) h
      simp [Level.fromStr, LOG_LEVEL_NAMES, position, h0, h1, h2, h3, h, okOr,
        Option.filter, Level.fromUsize]
    case Trace =>
      have h0 := name_match_unique offName (by decide) (by decide)
        (by decide) h
      have h1 := name_match_unique errorName (by decide) (by decide)
        (by decide) h
      have h2 := name_match_unique warnName (by decide) (by decide)
        (by decide) h
      have h3 := name_match_unique infoName (by decide) (by decide)
        (by decide) h
      have h4 := name_match_unique debugName (by decide) (by decide)
        (by decide) h
      simp [Level.fromStr, LOG_LEVEL_NAMES, position, h0, h1, h2, h3, h4, h,
        okOr, Option.filter, Level.fromUsize]

lemma filterFromStr_ok_iff (s : List Nat) (f : LevelFilter) :
    LevelFilter.fromStr s = .ok f ↔ eqIgnoreAsciiCase (filterName f) s = true := by
  constructor
  · intro h
    cases h0 : eqIgnoreAsciiCase offName s <;>
      cases h1 : eqIgnoreAsciiCase errorName s <;>
      cases h2 : eqIgnoreAsciiCase warnName s <;>
      cases h3 : eqIgnoreAsciiCase infoName s <;>
      cases h4 : eqIgnoreAsciiCase debugName s <;>
      cases h5 : eqIgnoreAsciiCase traceName s <;>
      simp_all [LevelFilter.fromStr, LOG_LEVEL_NAMES, position, okOr,
        LevelFilter.fromUsize] <;>
      (try (cases h; simp_all [filterName]))
  · intro h
    cases f <;> simp only [filterName] at h
    case Off =>
      simp [LevelFilter.fromStr, LOG_LEVEL_NAMES, position, h, okOr,
        LevelFilter.fromUsize]
    case Error =>
      have h0 := name_match_unique offName (by decide) (by decide)
        (by decide) h
      simp [LevelFilter.fromStr, LOG_LEVEL_NAMES, position, h0, h, okOr,
        LevelFilter.fromUsize]
    case Warn =>
      have h0 := name_match_unique offName (by decide) (by decide)
        (by decide) h
      have h1 := name_match_unique errorName (by decide) (by decide)
        (by decide) h
      simp [LevelFilter.fromStr, LOG_LEVEL_NAMES, position, h0, h1, h, okOr,
        LevelFilter.fromUsize]
    case Info =>
      have h0 := name_match_unique offName (by decide) (by decide)
        (by decide) h
      have h1 := name_match_unique errorName (by decide) (by decide)
        (by decide) h
      have h2 := name_match_unique warnName (by decide) (by decide)
        (by decide) h
      simp [LevelFilter.fromStr, LOG_LEVEL_NAMES, position, h0, h1, h2, h,
        okOr, LevelFilter.fromUsize]
    case Debug =>
      have h0 := name_match_unique offName (by decide) (by decide)
        (by decide) h
      have h1 := name_match_unique errorName (by decide) (by decide)
        (by decide) h
      have h2 := name_match_unique warnName (by decide) (by decide)
        (by decide) h
      have h3 := name_match_unique infoName (by decide) (by decide)
        (by decide) h
      simp [LevelFilter.fromStr, LOG_LEVEL_NAMES, position, h0, h1, h2, h3, h,
        okOr, LevelFilter.fromUsize]
    case Trace =>
      have h0 := name_match_unique offName (by decide) (by decide)
        (by decide) h
      have h1 := name_match_unique errorName (by decide) (by decide)
        (by decide) h
      have h2 := name_match_unique warnName (by decide) (by decide)
        (by decide) h
      have h3 := name_match_unique infoName (by decide) (by decide)
        (by decide) h
      have h4 := name_match_unique debugName (by decide) (by decide)
        (by decide) h
      simp [LevelFilter.fromStr, LOG_LEVEL_NAMES, position, h0, h1, h2, h3,
        h4, h, okOr, LevelFilter.fromUsize]

/-- C6: `Level::from_str(s)` succeeds with level `l` exactly when `s` equals
`l`'s name (one of ERROR, WARN, INFO, DEBUG, TRACE) ASCII-case-insensitively;
`LevelFilter::from_str` additionally accepts OFF as `LevelFilter::Off`; every
string matching none of the names — OFF included, for `Level` — yields
`Err(ParseLevelError)`; and parsing the `Display` output of any `Level` or
`LevelFilter` yields it back. -/
theorem from_str_spec :
    ∀ (s : List Nat) (l : Level) (f : LevelFilter),
      (Level.fromStr s = .ok l ↔ eqIgnoreAsciiCase (levelName l) s = true) ∧
      (LevelFilter.fromStr s = .ok f ↔
        eqIgnoreAsciiCase (filterName f) s = true) ∧
      ((∀ l' : Level, eqIgnoreAsciiCase (levelName l') s = false) →
        Level.fromStr s = .error ⟨⟩) ∧
      ((∀ f' : LevelFilter, eqIgnoreAsciiCase (filterName f') s = false) →
        LevelFilter.fromStr s = .error ⟨⟩) ∧
      Level.fromStr (Level.display l) = .ok l ∧
      LevelFilter.fromStr (LevelFilter.display f) = .ok f := by
  intro s l f
  refine ⟨levelFromStr_ok_iff s l, filterFromStr_ok_iff s f, ?_, ?_, ?_, ?_⟩
  · intro hall
    cases hfs : Level.fromStr s with
    | ok l' =>
      exact absurd ((levelFromStr_ok_iff s l').mp hfs)
        (by simp [hall l'])
    | error e => cases e; rfl
  · intro hall
    cases hfs : LevelFilter.fromStr s with
    | ok f' =>
      exact absurd ((filterFromStr_ok_iff s f').mp hfs)
        (by simp [hall f'])
    | error e => cases e; rfl
  · exact (levelFromStr_ok_iff _ l).mpr (by cases l <;> decide)
  · exact (filterFromStr_ok_iff _ f).mpr (by cases f <;> decide)

/-- C6 witness: `"OFF"` written in lowercase (`"off"`) parses as
`LevelFilter::Off` but is rejected by `Level::from_str`, and the names
round-trip through `Display`. -/
theorem from_str_spec_witness :
    Level.fromStr [111, 102, 102] = .error ⟨⟩ ∧
    LevelFilter.fromStr [111, 102, 102] = .ok LevelFilter.Off ∧
    Level.fromStr (Level.display Level.Warn) = .ok Level.Warn := by
  have h := from_str_spec [111, 102, 102] Level.Warn LevelFilter.Off
  exact ⟨h.2.2.1 (by decide), (h.2.1).mpr (by decide), h.2.2.2.2.1⟩

/-! ## Metadata, Record and their builders (src/out.rs)

`fmt::Arguments` values are only carried, never inspected; they are modelled
as `String`, with `format_args!("")` as the empty string.  The `properties`
field of `Record` is behind `#[cfg(feature = "serde")]` and is not modelled
(the default feature set omits it). -/

/-- `pub struct Metadata<'a> { level: Level, target: &'a str }`. -/
structure Metadata where
  level : Level
  target : String
deriving DecidableEq

/-- `struct Header<'a>` — the unconditional fields of `Record`. -/
structure Header where
  metadata : Metadata
  args : String
  module_path : Option String
  file : Option String
  line : Option Nat
deriving DecidableEq

/-- `pub struct Record<'a> { header: Header<'a> }`. -/
structure Record where
  header : Header
deriving DecidableEq

/-- `Record::args`. -/
def Record.args (r : Record) : String := r.header.args

/-- `Record::metadata`. -/
def Record.metadata (r : Record) : Metadata := r.header.metadata

/-- `Record::level`: `self.header.metadata.level()`. -/
def Record.level (r : Record) : Level := r.header.metadata.level

/-- `Record::target`: `self.header.metadata.target()`. -/
def Record.target (r : Record) : String := r.header.metadata.target

/-- `Record::module_path`. -/
def Record.module_path (r : Record) : Option String := r.header.module_path

/-- `Record::file`. -/
def Record.file (r : Record) : Option String := r.header.file

/-- `Record::line`. -/
def Record.line (r : Record) : Option Nat := r.header.line

/-- `pub struct MetadataBuilder<'a> { metadata: Metadata<'a> }`. -/
structure MetadataBuilder where
  metadata : Metadata
deriving DecidableEq

/-- `MetadataBuilder::new`: level `Info`, target `""`. -/
def MetadataBuilder.new : MetadataBuilder :=
  ⟨⟨Level.Info, ""⟩⟩

/-- `MetadataBuilder::level` setter. -/
def MetadataBuilder.level (b : MetadataBuilder) (arg : Level) : MetadataBuilder :=
  { b with metadata := { b.metadata with level := arg } }

/-- `MetadataBuilder::target` setter. -/
def MetadataBuilder.target (b : MetadataBuilder) (t : String) : MetadataBuilder :=
  { b with metadata := { b.metadata with target := t } }

/-- `MetadataBuilder::build`: `self.metadata.clone()`. -/
def MetadataBuilder.build (b : MetadataBuilder) : Metadata := b.metadata

/-- `Metadata::builder`. -/
def Metadata.builder : MetadataBuilder := MetadataBuilder.new

/-- `pub struct RecordBuilder<'a> { record: Record<'a> }`. -/
structure RecordBuilder where
  record : Record
deriving DecidableEq

/-- `RecordBuilder::new`: empty args, `Metadata::builder().build()`, and
`None` for module path, file and line. -/
def RecordBuilder.new : RecordBuilder :=
  ⟨⟨⟨Metadata.builder.build, "", none, none, none⟩⟩⟩

/-- `RecordBuilder::args` setter. -/
def RecordBuilder.args (b : RecordBuilder) (a : String) : RecordBuilder :=
  { b with record := { b.record with header := { b.record.header with args := a } } }

/-- `RecordBuilder::metadata` setter. -/
def RecordBuilder.metadata (b : RecordBuilder) (m : Metadata) : RecordBuilder :=
  { b with record := { b.record with header := { b.record.header with metadata := m } } }

/-- `RecordBuilder::level` setter: `self.record.header.metadata.level = level`. -/
def RecordBuilder.level (b : RecordBuilder) (l : Level) : RecordBuilder :=
  { b with record := { b.record with header := { b.record.header with
      metadata := { b.record.header.metadata with level := l } } } }

/-- `RecordBuilder::target` setter: `self.record.header.metadata.target = target`. -/
def RecordBuilder.target (b : RecordBuilder) (t : String) : RecordBuilder :=
  { b with record := { b.record with header := { b.record.header with
      metadata := { b.record.header.metadata with target := t } } } }

/-- `RecordBuilder::module_path` setter. -/
def RecordBuilder.module_path (b : RecordBuilder) (p : Option String) : RecordBuilder :=
  { b with record := { b.record with header := { b.record.header with module_path := p } } }

/-- `RecordBuilder::file` setter. -/
def RecordBuilder.file (b : RecordBuilder) (f : Option String) : RecordBuilder :=
  { b with record := { b.record with header := { b.record.header with file := f } } }

/-- `RecordBuilder::line` setter. -/
def RecordBuilder.line (b : RecordBuilder) (n : Option Nat) : RecordBuilder :=
  { b with record := { b.record with header := { b.record.header with line := n } } }

/-- `RecordBuilder::build`: `self.record.clone()`. -/
def RecordBuilder.build (b : RecordBuilder) : Record := b.record

/-- `Record::builder`. -/
def Record.builder : RecordBuilder := RecordBuilder.new

/-- C8: every `RecordBuilder` and `MetadataBuilder` setter changes only the
named component and leaves every other component unchanged; `build` returns
the record/metadata under construction, whose accessors return the last-set
components; the defaults are empty args, level `Info`, target `""` and
`None` for module path, file and line; and `Record::level`/`Record::target`
agree with the metadata accessors. -/
theorem builder_setters_frame :
    ∀ (b : RecordBuilder) (c : MetadataBuilder) (a : String) (m : Metadata)
      (l : Level) (t : String) (p q : Option String) (n : Option Nat)
      (r : Record),
      RecordBuilder.new.record.header.args = "" ∧
      RecordBuilder.new.record.header.metadata.level = Level.Info ∧
      RecordBuilder.new.record.header.metadata.target = "" ∧
      RecordBuilder.new.record.header.module_path = none ∧
      RecordBuilder.new.record.header.file = none ∧
      RecordBuilder.new.record.header.line = none ∧
      MetadataBuilder.new.metadata.level = Level.Info ∧
      MetadataBuilder.new.metadata.target = "" ∧
      (b.args a).record.header.args = a ∧
      (b.args a).record.header.metadata = b.record.header.metadata ∧
      (b.args a).record.header.module_path = b.record.header.module_path ∧
      (b.args a).record.header.file = b.record.header.file ∧
      (b.args a).record.header.line = b.record.header.line ∧
      (b.metadata m).record.header.metadata = m ∧
      (b.metadata m).record.header.args = b.record.header.args ∧
      (b.metadata m).record.header.module_path = b.record.header.module_path ∧
      (b.metadata m).record.header.file = b.record.header.file ∧
      (b.metadata m).record.header.line = b.record.header.line ∧
      (b.level l).record.header.metadata.level = l ∧
      (b.level l).record.header.metadata.target = b.record.header.metadata.target ∧
      (b.level l).record.header.args = b.record.header.args ∧
      (b.level l).record.header.module_path = b.record.header.module_path ∧
      (b.level l).record.header.file = b.record.header.file ∧
      (b.level l).record.header.line = b.record.header.line ∧
      (b.target t).record.header.metadata.target = t ∧
      (b.target t).record.header.metadata.level = b.record.header.metadata.level ∧
      (b.target t).record.header.args = b.record.header.args ∧
      (b.target t).record.header.module_path = b.record.header.module_path ∧
      (b.target t).record.header.file = b.record.header.file ∧
      (b.target t).record.header.line = b.record.header.line ∧
      (b.module_path p).record.header.module_path = p ∧
      (b.module_path p).record.header.args = b.record.header.args ∧
      (b.module_path p).record.header.metadata = b.record.header.metadata ∧
      (b.module_path p).record.header.file = b.record.header.file ∧
      (b.module_path p).record.header.line = b.record.header.line ∧
      (b.file q).record.header.file = q ∧
      (b.file q).record.header.args = b.record.header.args ∧
      (b.file q).record.header.metadata = b.record.header.metadata ∧
      (b.file q).record.header.module_path = b.record.header.module_path ∧
      (b.file q).record.header.line = b.record.header.line ∧
      (b.line n).record.header.line = n ∧
      (b.line n).record.header.args = b.record.header.args ∧
      (b.line n).record.header.metadata = b.record.header.metadata ∧
      (b.line n).record.header.module_path = b.record.header.module_path ∧
      (b.line n).record.header.file = b.record.header.file ∧
      (c.level l).metadata.level = l ∧
      (c.level l).metadata.target = c.metadata.target ∧
      (c.target t).metadata.target = t ∧
      (c.target t).metadata.level = c.metadata.level ∧
      b.build = b.record ∧
      c.build = c.metadata ∧
      r.args = r.header.args ∧
      r.metadata = r.header.metadata ∧
      r.module_path = r.header.module_path ∧
      r.file = r.header.file ∧
      r.line = r.header.line ∧
      r.level = r.metadata.level ∧
      r.target = r.metadata.target := by
  intros
  and_intros <;> rfl

/-! ## The global logger slot (src/out.rs: LOGGER, STATE, set_logger, logger)

A `Log` trait object is modelled as a structure of functions; the observable
side effects of `log`/`flush` are threaded through an abstract effect state
`σ`.  The mutable statics `LOGGER`, `STATE` and `MAX_LOG_LEVEL_FILTER` form
an explicit `GlobalState` value, and the atomic operations are read in
program order (the claims under verification are sequential). -/

/-- `pub trait Log { fn enabled(..); fn log(..); fn flush(..); }`. -/
structure Logger (σ : Type) where
  enabled : Metadata → Bool
  log : σ → Record → σ
  flush : σ → σ

/-- `struct NopLogger`: `enabled` is `false`, `log` and `flush` do nothing. -/
def NopLogger {σ : Type} : Logger σ :=
  { enabled := fun _ => false, log := fun s _ => s, flush := fun s => s }

/-- `const UNINITIALIZED: usize = 0`. -/
def UNINITIALIZED : Nat := 0

/-- `const INITIALIZING: usize = 1`. -/
def INITIALIZING : Nat := 1

/-- `const INITIALIZED: usize = 2`. -/
def INITIALIZED : Nat := 2

/-- The mutable statics: `LOGGER`, `STATE` and `MAX_LOG_LEVEL_FILTER`. -/
structure GlobalState (σ : Type) where
  LOGGER : Logger σ
  STATE : Nat
  MAX_LOG_LEVEL_FILTER : Nat

/-- The statics' initial values: `&NopLogger`, `ATOMIC_USIZE_INIT` (= 0) for
both atomics. -/
def initialState (σ : Type) : GlobalState σ :=
  ⟨NopLogger, UNINITIALIZED, 0⟩

/-- `pub struct SetLoggerError(())`. -/
structure SetLoggerError where
deriving DecidableEq

/-- `fn set_logger_inner<F>` (src/out.rs): a
`STATE.compare_and_swap(UNINITIALIZED, INITIALIZING)` that returns a value
other than `UNINITIALIZED` fails with `SetLoggerError` and touches nothing;
otherwise `STATE` passes through `INITIALIZING`, `LOGGER` is written, and
`STATE` is set to `INITIALIZED`. -/
def set_logger_inner {σ : Type} (make_logger : Unit → Logger σ)
    (g : GlobalState σ) : Except SetLoggerError Unit × GlobalState σ :=
  if g.STATE ≠ UNINITIALIZED then (.error ⟨⟩, g)
  else
    let g1 := { g with STATE := INITIALIZING }
    let g2 := { g1 with LOGGER := make_logger () }
    (.ok (), { g2 with STATE := INITIALIZED })

/-- `pub fn set_logger(logger: &'static Log)`: `set_logger_inner(|| logger)`. -/
def set_logger {σ : Type} (L : Logger σ) (g : GlobalState σ) :
    Except SetLoggerError Unit × GlobalState σ :=
  set_logger_inner (fun _ => L) g

/-- `pub fn set_boxed_logger(logger: Box<Log>)`:
`set_logger_inner(|| unsafe { &*Box::into_raw(logger) })`. -/
def set_boxed_logger {σ : Type} (L : Logger σ) (g : GlobalState σ) :
    Except SetLoggerError Unit × GlobalState σ :=
  set_logger_inner (fun _ => L) g

/-- `pub fn logger()` (src/out.rs): the `NopLogger` unless
`STATE == INITIALIZED`, in which case the installed `LOGGER`. -/
def logger {σ : Type} (g : GlobalState σ) : Logger σ :=
  if g.STATE ≠ INITIALIZED then NopLogger else g.LOGGER

lemma set_logger_inner_uninit {σ : Type} (mk : Unit → Logger σ)
    (g : GlobalState σ) (h : g.STATE = UNINITIALIZED) :
    set_logger_inner mk g =
      (.ok (), { g with LOGGER := mk (), STATE := INITIALIZED }) := by
  simp only [set_logger_inner]
  rw [if_neg (by simp [h])]

lemma set_logger_inner_already {σ : Type} (mk : Unit → Logger σ)
    (g : GlobalState σ) (h : g.STATE ≠ UNINITIALIZED) :
    set_logger_inner mk g = (.error ⟨⟩, g) := by
  simp only [set_logger_inner]
  rw [if_pos h]

/-- C1: the global logger registration is set-once: from the uninitialized
state, `set_logger` (and `set_boxed_logger`) returns `Ok(())` and installs
the given logger with `STATE = INITIALIZED`; from any other state — so in
particular after a successful registration — both functions return
`Err(SetLoggerError)` and leave the logger and the state exactly unchanged. -/
theorem set_logger_set_once (σ : Type) (L M : Logger σ) (g : GlobalState σ) :
    (g.STATE = UNINITIALIZED →
      set_logger L g =
        (.ok (), { g with LOGGER := L, STATE := INITIALIZED }) ∧
      set_boxed_logger L g =
        (.ok (), { g with LOGGER := L, STATE := INITIALIZED })) ∧
    (g.STATE ≠ UNINITIALIZED →
      set_logger M g = (.error ⟨⟩, g) ∧
      set_boxed_logger M g = (.error ⟨⟩, g)) ∧
    (g.STATE = UNINITIALIZED →
      ((set_logger L g).2).STATE = INITIALIZED ∧
      ((set_logger L g).2).LOGGER = L) := by
  refine ⟨fun h => ?_, fun h => ?_, fun h => ?_⟩
  · exact ⟨set_logger_inner_uninit _ g h, set_logger_inner_uninit _ g h⟩
  · exact ⟨set_logger_inner_already _ g h, set_logger_inner_already _ g h⟩
  · rw [set_logger, set_logger_inner_uninit _ g h]
    exact ⟨rfl, rfl⟩

/-- A concrete logger over the effect state `Nat`, counting `log` calls. -/
def demoLogger : Logger Nat :=
  { enabled := fun _ => true, log := fun s _ => s + 1, flush := fun s => s }

/-- C1 witness: starting from the initial state, the first `set_logger`
succeeds and installs `demoLogger`; the second call fails and changes
nothing. -/
theorem set_logger_set_once_witness :
    set_logger demoLogger (initialState Nat) =
      (.ok (), { (initialState Nat) with
        LOGGER := demoLogger,
        STATE := INITIALIZED }) ∧
    set_logger demoLogger (set_logger demoLogger (initialState Nat)).2 =
      (.error ⟨⟩, (set_logger demoLogger (initialState Nat)).2) := by
  have h := set_logger_set_once Nat demoLogger demoLogger (initialState Nat)
  have h2 := set_logger_set_once Nat demoLogger demoLogger
    (set_logger demoLogger (initialState Nat)).2
  refine ⟨(h.1 rfl).1, (h2.2.1 ?_).1⟩
  have h3 := (h.2.2 rfl).1
  simp [h3, INITIALIZED, UNINITIALIZED]

/-- C3: whenever no logger has been successfully installed (`STATE` is not
`INITIALIZED`, including mid-initialization), `logger()` returns the no-op
logger, whose `enabled` is `false` on every `Metadata` and whose `log` and
`flush` leave the effect state untouched; once `set_logger` succeeds,
`logger()` returns exactly the installed logger. -/
theorem logger_nop_until_initialized (σ : Type) (g : GlobalState σ) :
    (g.STATE ≠ INITIALIZED →
      logger g = NopLogger ∧
      (∀ m : Metadata, (logger g).enabled m = false) ∧
      (∀ (s : σ) (r : Record), (logger g).log s r = s) ∧
      (∀ s : σ, (logger g).flush s = s)) ∧
    (∀ L : Logger σ, (set_logger L g).1 = .ok () →
      logger (set_logger L g).2 = L) := by
  constructor
  · intro h
    have hg : logger g = NopLogger := by simp [logger, h]
    exact ⟨hg, fun m => by simp [hg, NopLogger], fun s r => by simp [hg, NopLogger],
      fun s => by simp [hg, NopLogger]⟩
  · intro L h
    by_cases hs : g.STATE = UNINITIALIZED
    · rw [set_logger, set_logger_inner_uninit _ g hs]
      simp [logger, INITIALIZED]
    · rw [set_logger, set_logger_inner_already _ g hs] at h
      exact absurd h (by simp)

/-- C3 witness: before initialization `logger()` is the no-op logger; after
a successful `set_logger` it is the installed `demoLogger`. -/
theorem logger_nop_until_initialized_witness :
    logger (initialState Nat) = NopLogger ∧
    (logger (initialState Nat)).enabled ⟨Level.Info, ""⟩ = false ∧
    logger (set_logger demoLogger (initialState Nat)).2 = demoLogger := by
  have h := logger_nop_until_initialized Nat (initialState Nat)
  have h1 := h.1 (by simp [initialState, UNINITIALIZED, INITIALIZED])
  exact ⟨h1.1, h1.2.1 _, h.2 demoLogger rfl⟩

/-! ## The log! macro (src/out.rs: log!, error!, ..., max_level) -/

/-- `pub fn set_max_level(level: LevelFilter)`:
`MAX_LOG_LEVEL_FILTER.store(level as usize)`. -/
def set_max_level {σ : Type} (level : LevelFilter) (g : GlobalState σ) :
    GlobalState σ :=
  { g with MAX_LOG_LEVEL_FILTER := level.toUsize }

/-- `pub fn max_level()`: `transmute(MAX_LOG_LEVEL_FILTER.load(..))`.  The
transmute is only defined for the discriminant values `0..=5`, the only ones
`set_max_level` ever stores; the `getD` default is unreachable. -/
def max_level {σ : Type} (g : GlobalState σ) : LevelFilter :=
  (LevelFilter.fromUsize g.MAX_LOG_LEVEL_FILTER).getD .Off

/-- `pub const STATIC_MAX_LEVEL: LevelFilter = MAX_LEVEL_INNER`, which is
`LevelFilter::Trace` when no `max_level_*` feature is enabled. -/
def STATIC_MAX_LEVEL : LevelFilter := .Trace

/-- The `log!(target: $target, $lvl, $($arg)+)` arm: when
`lvl <= STATIC_MAX_LEVEL && lvl <= max_level()`, pass the record built by
`RecordBuilder::new().args(..).level(lvl).target($target)
.module_path(Some(module_path!())).file(Some(file!()))
.line(Some(line!())).build()` to `Log::log(logger(), ..)`; otherwise do
nothing. -/
def logCallTarget {σ : Type} (g : GlobalState σ) (s : σ) (target : String)
    (lvl : Level) (a : String) (modPath fl : String) (ln : Nat) : σ :=
  if lvl.leFilter STATIC_MAX_LEVEL && lvl.leFilter (max_level g) then
    (logger g).log s
      ((((((RecordBuilder.new.args a).level lvl).target target).module_path
        (some modPath)).file (some fl)).line (some ln)).build
  else s

/-- The `log!($lvl, $($arg)+)` arm: expands to
`log!(target: module_path!(), $lvl, $($arg)+)`. -/
def logCall {σ : Type} (g : GlobalState σ) (s : σ) (lvl : Level) (a : String)
    (modPath fl : String) (ln : Nat) : σ :=
  logCallTarget g s modPath lvl a modPath fl ln

/-- `error!($($arg)*)`: `log!($crate::Level::Error, $($arg)*)`. -/
def errorCall {σ : Type} (g : GlobalState σ) (s : σ) (a : String)
    (modPath fl : String) (ln : Nat) : σ :=
  logCall g s .Error a modPath fl ln

/-- `warn!($($arg)*)`: `log!($crate::Level::Warn, $($arg)*)`. -/
def warnCall {σ : Type} (g : GlobalState σ) (s : σ) (a : String)
    (modPath fl : String) (ln : Nat) : σ :=
  logCall g s .Warn a modPath fl ln

/-- `info!($($arg)*)`: `log!($crate::Level::Info, $($arg)*)`. -/
def infoCall {σ : Type} (g : GlobalState σ) (s : σ) (a : String)
    (modPath fl : String) (ln : Nat) : σ :=
  logCall g s .Info a modPath fl ln

/-- `debug!($($arg)*)`: `log!($crate::Level::Debug, $($arg)*)`. -/
def debugCall {σ : Type} (g : GlobalState σ) (s : σ) (a : String)
    (modPath fl : String) (ln : Nat) : σ :=
  logCall g s .Debug a modPath fl ln

/-- `trace!($($arg)*)`: `log!($crate::Level::Trace, $($arg)*)`. -/
def traceCall {σ : Type} (g : GlobalState σ) (s : σ) (a : String)
    (modPath fl : String) (ln : Nat) : σ :=
  logCall g s .Trace a modPath fl ln

/-- C2: a `log!` invocation passes its record to `Log::log` of the global
logger exactly when the invocation's level is `<= STATIC_MAX_LEVEL` and
`<= max_level()` (both comparisons being the discriminant order); the record
passed carries the given level, the given target (defaulting to the invoking
module path in the target-less arm), the formatted message and the source
location, and otherwise the logger is not called and the effect state is
returned unchanged; `error!` … `trace!` are `log!` at the corresponding
level. -/
theorem log_macro_filter_and_record (σ : Type) (g : GlobalState σ) (s : σ)
    (target lvl a modPath fl ln : _) :
    logCallTarget (σ := σ) g s target lvl a modPath fl ln =
      (if lvl.leFilter STATIC_MAX_LEVEL && lvl.leFilter (max_level g) then
        (logger g).log s ⟨⟨⟨lvl, target⟩, a, some modPath, some fl, some ln⟩⟩
      else s) ∧
    Level.leFilter lvl STATIC_MAX_LEVEL = decide (lvl.toUsize ≤ STATIC_MAX_LEVEL.toUsize) ∧
    Level.leFilter lvl (max_level g) = decide (lvl.toUsize ≤ (max_level g).toUsize) ∧
    logCall g s lvl a modPath fl ln = logCallTarget g s modPath lvl a modPath fl ln ∧
    errorCall g s a modPath fl ln = logCall g s .Error a modPath fl ln ∧
    warnCall g s a modPath fl ln = logCall g s .Warn a modPath fl ln ∧
    infoCall g s a modPath fl ln = logCall g s .Info a modPath fl ln ∧
    debugCall g s a modPath fl ln = logCall g s .Debug a modPath fl ln ∧
    traceCall g s a modPath fl ln = logCall g s .Trace a modPath fl ln := by
  refine ⟨rfl, ?_, ?_, rfl, rfl, rfl, rfl, rfl, rfl⟩
  · cases lvl <;> rfl
  · cases lvl <;> cases h : max_level g <;>
      simp [Level.leFilter, Level.pcmpFilter, Level.toUsize,
        LevelFilter.toUsize, compare, compareOfLessAndEq]

/-! ## Structured keys (src/src/key_values/key.rs) -/

/-- `enum Str<'k> { Borrowed(&'k str), Owned(String) }` (the `Owned` variant
is behind `cfg(feature = "std")`). -/
inductive Str where
  | borrowed (s : String)
  | owned (s : String)
deriving DecidableEq

/-- `pub struct Key<'k> { inner: Str<'k>, index: Option<usize> }`. -/
structure Key where
  inner : Str
  index : Option Nat
deriving DecidableEq

/-- `Key::from_str(key, index)`: borrows the string, stores the given index. -/
def Key.from_str (key : String) (index : Option Nat) : Key :=
  ⟨.borrowed key, index⟩

/-- `Key::as_str`. -/
def Key.as_str (k : Key) : String :=
  match k.inner with
  | .borrowed s => s
  | .owned s => s

/-- `impl ToKey for str`: `Key::from_str(self, None)`. -/
def strToKey (s : String) : Key := Key.from_str s none

/-- `impl From<&'k str> for Key<'k>`: `Key::from_str(k, None)`. -/
def keyFromStr (s : String) : Key := Key.from_str s none

/-- `impl ToKey for Key<'k>`: `Key::from_str(self, self.index)`, where the
`Borrow<str>` view of a `Key` is `as_str`. -/
def Key.toKey (k : Key) : Key := Key.from_str k.as_str k.index

/-- `impl PartialEq for Key`: `self.as_str().eq(other.as_str())`. -/
def Key.eqKey (a b : Key) : Bool := a.as_str == b.as_str

/-- `impl Ord for Key`: `self.as_str().cmp(other.as_str())`. -/
def Key.cmpKey (a b : Key) : Ordering := compare a.as_str b.as_str

/-- `impl PartialOrd for Key`:
`self.as_str().partial_cmp(other.as_str())`, which for `str` is always
`Some` of the total comparison. -/
def Key.pcmpKey (a b : Key) : Option Ordering := some (compare a.as_str b.as_str)

/-- `impl Hash for Key`: `self.as_str().hash(state)` — the key hashes
exactly as its string. -/
def Key.hashKey (k : Key) : UInt64 := k.as_str.hash

/-- C10 counterexample: the claim says `Key::from_str` produces index
`None`, but `Key::from_str` stores exactly the index it is given:
`Key::from_str("a", Some(0))` has index `Some(0)`. -/
theorem key_from_str_keeps_given_index :
    ¬((Key.from_str "a" (some 0)).index = none) := by
  simp [Key.from_str]

/-- C10 (amended): key equality, ordering and hashing are determined solely
by the key's string content — the index is ignored, so keys with equal
strings and different indexes are equal; `str::to_key` and `From<&str>`
produce index `None`, while `Key::from_str` stores exactly the index it is
given and converting a `Key` via `ToKey` preserves both string and index. -/
theorem key_ops_use_string_only :
    ∀ (a b : Key) (s : String) (i : Option Nat),
      (Key.eqKey a b = true ↔ a.as_str = b.as_str) ∧
      Key.cmpKey a b = compare a.as_str b.as_str ∧
      Key.pcmpKey a b = some (compare a.as_str b.as_str) ∧
      Key.hashKey a = a.as_str.hash ∧
      (strToKey s).index = none ∧
      (strToKey s).as_str = s ∧
      (keyFromStr s).index = none ∧
      (keyFromStr s).as_str = s ∧
      (Key.from_str s i).index = i ∧
      (Key.from_str s i).as_str = s ∧
      a.toKey.index = a.index ∧
      a.toKey.as_str = a.as_str ∧
      Key.eqKey ⟨.borrowed s, i⟩ ⟨.owned s, none⟩ = true := by
  intro a b s i
  refine ⟨?_, rfl, rfl, rfl, rfl, rfl, rfl, rfl, rfl, rfl, rfl, rfl, ?_⟩
  · simp [Key.eqKey]
  · simp [Key.eqKey, Key.as_str]

/-! ## Sources of key-value pairs (src/src/key_values/source/mod.rs)

`Source` is a trait whose only required method is
`visit(&self, visitor) -> Result<(), Error>`.  The `Get` visitor used by the
default `Source::get` always returns `Ok(())` from `visit_pair`, so the
interaction of an arbitrary source with it is exactly a finite sequence of
`visit_pair(k, v)` calls followed by the source's final result; a source is
therefore modelled by that trace.  `Value<'kvs>` payloads are only stored
and returned, never inspected, so they stay a type parameter `V`. -/

/-- `enum ErrorInner { Static(&'static str), Owned(String) }` of
`key_values::Error`. -/
inductive KvErrorInner where
  | static (msg : String)
  | owned (msg : String)
deriving DecidableEq

/-- `pub struct Error(ErrorInner)` (src/src/key_values/error.rs). -/
structure KvError where
  inner : KvErrorInner
deriving DecidableEq

/-- A `Source`, seen through its interaction with an always-`Ok` visitor:
the `visit_pair` calls it makes, in order, and the `Result` its `visit`
returns. -/
structure SourceRun (V : Type) where
  pairs : List (Key × V)
  result : Except KvError Unit

/-- The default `Source::get` (src/src/key_values/source/mod.rs): runs the
`Get(key.to_key(), None)` visitor — whose `visit_pair` overwrites the state
with `Some(v)` whenever `k == self.0` — over `visit`, discarding `visit`'s
result (`let _ = self.visit(&mut visitor)`), and returns the final state. -/
def Source.get {V : Type} (src : SourceRun V) (key : Key) : Option V :=
  src.pairs.foldl
    (fun st p => if Key.eqKey p.1 key.toKey then some p.2 else st) none

lemma foldl_overwrite {V : Type} (q : Key) :
    ∀ (ps : List (Key × V)) (acc : Option V),
      ps.foldl (fun st p => if Key.eqKey p.1 q then some p.2 else st) acc =
        match (ps.filter fun p => Key.eqKey p.1 q).getLast? with
        | some r => some r.2
        | none => acc := by
  intro ps
  induction ps with
  | nil => intro acc; rfl
  | cons p ps ih =>
    intro acc
    rw [List.foldl_cons, ih]
    by_cases hm : Key.eqKey p.1 q = true
    · simp only [List.filter_cons, hm, if_true, ite_true, eq_self_iff_true]
      cases hfp : ps.filter fun r => Key.eqKey r.1 q with
      | nil => simp
      | cons r rs =>
        rw [List.getLast?_cons_cons]
        cases hgl : (r :: rs).getLast? with
        | none => simp at hgl
        | some u => rfl
    · simp [List.filter_cons, hm]

lemma eqKey_toKey (p k : Key) :
    Key.eqKey p k.toKey = (p.as_str == k.as_str) := rfl

/-- C9: for every source, the default `Source::get(key)` returns `None`
exactly when the source's `visit` emits no pair whose key string equals the
given key's string, and otherwise returns the value of the last matching
pair in visit order (later matches overwrite earlier ones); the result of
`visit` — error or not — is discarded and never affects the answer. -/
theorem source_get_last_match (V : Type) (src : SourceRun V) (key : Key) :
    Source.get src key =
      (match (src.pairs.filter fun p => Key.eqKey p.1 key.toKey).getLast? with
       | some r => some r.2
       | none => none) ∧
    (Source.get src key = none ↔
      ∀ p ∈ src.pairs, ¬(p.1.as_str = key.as_str)) ∧
    (∀ e : Except KvError Unit,
      Source.get ⟨src.pairs, e⟩ key = Source.get src key) := by
  refine ⟨foldl_overwrite key.toKey src.pairs none, ?_, fun e => rfl⟩
  rw [Source.get, foldl_overwrite key.toKey src.pairs none]
  cases hfp : src.pairs.filter fun p => Key.eqKey p.1 key.toKey with
  | nil =>
    have hall : ∀ p ∈ src.pairs, ¬(p.1.as_str = key.as_str) := by
      intro p hp hs
      have hmem : p ∈ src.pairs.filter fun r => Key.eqKey r.1 key.toKey :=
        List.mem_filter.mpr ⟨hp, by rw [eqKey_toKey]; exact beq_iff_eq.mpr hs⟩
      rw [hfp] at hmem
      exact absurd hmem (List.not_mem_nil p)
    exact iff_of_true rfl hall
  | cons r rs =>
    cases hgl : (r :: rs).getLast? with
    | none => simp at hgl
    | some u =>
      refine iff_of_false (by simp) ?_
      intro hall
      have hmem : u ∈ r :: rs := by
        obtain ⟨hne, hu⟩ := List.mem_getLast?_eq_getLast (Option.mem_def.mpr hgl)
        rw [hu]
        exact List.getLast_mem hne
      rw [← hfp, List.mem_filter] at hmem
      have heq : u.1.as_str = key.as_str := by
        have hb := hmem.2
        rw [eqKey_toKey] at hb
        exact beq_iff_eq.mp hb
      exact absurd heq (hall u hmem.1)

/-- C9 witness: with two pairs under the same key, `get` returns the second
value; the final result of `visit` does not matter. -/
theorem source_get_last_match_witness :
    Source.get ⟨[(Key.from_str "a" none, (1 : Nat)),
                 (Key.from_str "a" none, 2)], .ok ()⟩ (Key.from_str "a" none)
      = some 2 ∧
    Source.get ⟨[], .error ⟨.static "boom"⟩⟩ (Key.from_str "a" none)
      = (none : Option Nat) := by
  have h := source_get_last_match Nat
    ⟨[(Key.from_str "a" none, (1 : Nat)), (Key.from_str "a" none, 2)], .ok ()⟩
    (Key.from_str "a" none)
  have h2 := source_get_last_match Nat ⟨[], .error ⟨.static "boom"⟩⟩
    (Key.from_str "a" none)
  refine ⟨?_, ?_⟩
  · rw [h.1]
    rfl
  · rw [h2.1]
    rfl

/-! ## Structured values (src/src/key_values/value/mod.rs, impls.rs)

`Value<'v>` erases a `(data, from)` pair behind `fn(FromAny, &T)`; in the
shallow embedding the data is curried into the closure, so a `Value` is a
function from the `FromAny` builder (wrapping a `Backend`) to the visit
result.  Observable visitor effects are threaded through an abstract state
`σ`.  Integer payloads carry exact values as `Nat`/`Int` (the widening
casts are value-preserving); float payloads carry IEEE-754 bit patterns as
`Nat`, with `as f64` modelled bit-precisely. -/

/-- The IEEE-754 widening cast `v as f64` applied to an `f32`, on bit
patterns: the sign is copied, the exponent re-biased from 127 to 1023, the
23-bit mantissa shifted to the top of the 52-bit field; infinities and NaNs
keep exponent all-ones with the payload shifted; subnormals are
normalized. -/
def f32AsF64 (b : Nat) : Nat :=
  let s := b / 2 ^ 31 % 2
  let e := b / 2 ^ 23 % 2 ^ 8
  let m := b % 2 ^ 23
  if e = 255 then s * 2 ^ 63 + 2047 * 2 ^ 52 + m * 2 ^ 29
  else if e = 0 then
    if m = 0 then s * 2 ^ 63
    else
      let p := Nat.log2 m
      s * 2 ^ 63 + (p + 874) * 2 ^ 52 + (m - 2 ^ p) * 2 ^ (52 - p)
  else s * 2 ^ 63 + (e + 896) * 2 ^ 52 + m * 2 ^ 29

/-- The `fmt::Arguments` value produced by `format_args!("{:?}", v)` in the
`Visitor` default methods: the debug view of the visited primitive. -/
inductive DebugArg where
  | ofU64 (n : Nat)
  | ofI64 (i : Int)
  | ofF64 (x : Nat)
  | ofBool (b : Bool)
  | ofChar (c : Char)
  | ofStr (s : String)
  | ofNone
deriving DecidableEq

/-- `pub trait Visitor` (src/src/key_values/value/mod.rs): `fmt` plus one
method per primitive kind. -/
structure Visitor (σ : Type) where
  fmt : DebugArg → σ → Except KvError σ
  u64 : Nat → σ → Except KvError σ
  i64 : Int → σ → Except KvError σ
  f64 : Nat → σ → Except KvError σ
  bool : Bool → σ → Except KvError σ
  char : Char → σ → Except KvError σ
  str : String → σ → Except KvError σ
  none : σ → Except KvError σ

/-- A `Visitor` implementation that provides only the required `fmt` and
keeps every default method body, each of which is
`self.fmt(format_args!("{:?}", v))`. -/
def Visitor.ofFmt {σ : Type} (fm : DebugArg → σ → Except KvError σ) :
    Visitor σ :=
  { fmt := fm
    u64 := fun n => fm (.ofU64 n)
    i64 := fun i => fm (.ofI64 i)
    f64 := fun x => fm (.ofF64 x)
    bool := fun c => fm (.ofBool c)
    char := fun c => fm (.ofChar c)
    str := fun t => fm (.ofStr t)
    none := fm .ofNone }

/-- `trait Backend` (src/src/key_values/value/mod.rs): the seven primitive
receivers. -/
structure Backend (σ : Type) where
  u64 : Nat → σ → Except KvError σ
  i64 : Int → σ → Except KvError σ
  f64 : Nat → σ → Except KvError σ
  bool : Bool → σ → Except KvError σ
  char : Char → σ → Except KvError σ
  str : String → σ → Except KvError σ
  none : σ → Except KvError σ

/-- `struct VisitorBackend<'a>(&'a mut dyn Visitor)`: forwards every
`Backend` method to the matching `Visitor` method. -/
def VisitorBackend {σ : Type} (v : Visitor σ) : Backend σ :=
  ⟨v.u64, v.i64, v.f64, v.bool, v.char, v.str, v.none⟩

/-- `pub struct FromAny<'a>(&'a mut dyn Backend)`. -/
structure FromAny (σ : Type) where
  backend : Backend σ

/-- A `Value<'v>`: the erased `from` closure with its captured datum,
awaiting a `FromAny` builder. -/
def Value (σ : Type) : Type :=
  FromAny σ → σ → Except KvError σ

/-- `FromAny::u64`. -/
def FromAny.u64 {σ : Type} (f : FromAny σ) (n : Nat) : σ → Except KvError σ :=
  f.backend.u64 n

/-- `FromAny::i64`. -/
def FromAny.i64 {σ : Type} (f : FromAny σ) (i : Int) : σ → Except KvError σ :=
  f.backend.i64 i

/-- `FromAny::f64`. -/
def FromAny.f64 {σ : Type} (f : FromAny σ) (x : Nat) : σ → Except KvError σ :=
  f.backend.f64 x

/-- `FromAny::bool`. -/
def FromAny.bool {σ : Type} (f : FromAny σ) (c : Bool) : σ → Except KvError σ :=
  f.backend.bool c

/-- `FromAny::char`. -/
def FromAny.char {σ : Type} (f : FromAny σ) (c : Char) : σ → Except KvError σ :=
  f.backend.char c

/-- `FromAny::str`. -/
def FromAny.str {σ : Type} (f : FromAny σ) (t : String) : σ → Except KvError σ :=
  f.backend.str t

/-- `FromAny::none`. -/
def FromAny.none {σ : Type} (f : FromAny σ) : σ → Except KvError σ :=
  f.backend.none

/-- `FromAny::value`: `v.0.visit(self.0)` — runs the other value on the
same backend. -/
def FromAny.value {σ : Type} (f : FromAny σ) (v : Value σ) :
    σ → Except KvError σ :=
  v f

/-- `Value::visit`: wraps the visitor in a `VisitorBackend` and runs the
erased `from` closure on it. -/
def Value.visit {σ : Type} (val : Value σ) (v : Visitor σ) (s : σ) :
    Except KvError σ :=
  val ⟨VisitorBackend v⟩ s

/-- The primitive types whose `ToValue` impls live in
src/src/key_values/value/impls.rs; integer payloads are exact values,
float payloads are bit patterns, and `Option<T>`'s two match arms are the
`optSome`/`optNone` constructors. -/
inductive Primitive where
  | unit
  | u8 (n : Nat)
  | u16 (n : Nat)
  | u32 (n : Nat)
  | u64 (n : Nat)
  | i8 (i : Int)
  | i16 (i : Int)
  | i32 (i : Int)
  | i64 (i : Int)
  | f32 (b : Nat)
  | f64 (b : Nat)
  | bool (c : Bool)
  | char (c : Char)
  | str (t : String)
  | optSome (v : Primitive)
  | optNone

/-- The `ToValue` impls (src/src/key_values/value/impls.rs), one arm per
impl: `()` and `None` call `from.none()`, unsigned integers call
`from.u64(*v as u64)`, signed ones `from.i64(*v as i64)`, floats
`from.f64(*v as f64)`, and `Some(ref v)` calls `from.value(v.to_value())`. -/
def toValue {σ : Type} : Primitive → Value σ
  | .unit => fun fa => fa.none
  | .u8 n => fun fa => fa.u64 n
  | .u16 n => fun fa => fa.u64 n
  | .u32 n => fun fa => fa.u64 n
  | .u64 n => fun fa => fa.u64 n
  | .i8 i => fun fa => fa.i64 i
  | .i16 i => fun fa => fa.i64 i
  | .i32 i => fun fa => fa.i64 i
  | .i64 i => fun fa => fa.i64 i
  | .f32 b => fun fa => fa.f64 (f32AsF64 b)
  | .f64 b => fun fa => fa.f64 b
  | .bool c => fun fa => fa.bool c
  | .char c => fun fa => fa.char c
  | .str t => fun fa => fa.str t
  | .optSome v => fun fa => fa.value (toValue v)
  | .optNone => fun fa => fa.none

/-- C7: `Value::visit` on the `ToValue` capture of any primitive invokes
exactly the one `Visitor` method matching the primitive's kind — unsigned
integers through `u64`, signed through `i64`, floats through `f64` with the
`f32` payload widened, `()` and `None` through `none`, and `Some(v)` exactly
as `v` itself; and a visitor implementing only `fmt` has every other method
forward the debug formatting of its argument to `fmt`. -/
theorem value_visit_dispatch (σ : Type) (v : Visitor σ) (s : σ)
    (p : Primitive) :
    Value.visit (toValue p) v s =
      (match p with
       | .unit => v.none s
       | .u8 n => v.u64 n s
       | .u16 n => v.u64 n s
       | .u32 n => v.u64 n s
       | .u64 n => v.u64 n s
       | .i8 i => v.i64 i s
       | .i16 i => v.i64 i s
       | .i32 i => v.i64 i s
       | .i64 i => v.i64 i s
       | .f32 b => v.f64 (f32AsF64 b) s
       | .f64 b => v.f64 b s
       | .bool c => v.bool c s
       | .char c => v.char c s
       | .str t => v.str t s
       | .optSome q => Value.visit (toValue q) v s
       | .optNone => v.none s) ∧
    (∀ fm : DebugArg → σ → Except KvError σ,
      (Visitor.ofFmt fm).fmt = fm ∧
      (Visitor.ofFmt fm).u64 = (fun n => fm (.ofU64 n)) ∧
      (Visitor.ofFmt fm).i64 = (fun i => fm (.ofI64 i)) ∧
      (Visitor.ofFmt fm).f64 = (fun x => fm (.ofF64 x)) ∧
      (Visitor.ofFmt fm).bool = (fun c => fm (.ofBool c)) ∧
      (Visitor.ofFmt fm).char = (fun c => fm (.ofChar c)) ∧
      (Visitor.ofFmt fm).str = (fun t => fm (.ofStr t)) ∧
      (Visitor.ofFmt fm).none = fm .ofNone) := by
  refine ⟨?_, fun fm => ⟨rfl, rfl, rfl, rfl, rfl, rfl, rfl, rfl⟩⟩
  cases p <;> rfl


end LogSpec
